import Mathlib

/-!
Shallow embedding of `libs/common/bitcoin/liquid/pset.py` (Liquid PSET
extension of the PSBT container): the confidential input/output records
(`LInputScope`, `LOutputScope`), their key-value serialization, the
`verify` / `unblind` / `reblind` / `blind` / `fee` operations of the `PSET`
container, and theorems checking the natural-language specification
against these definitions.

Byte strings are modelled as `List Nat` (each entry a byte value); the
external secp256k1/zkp commitment engine, the tagged-hash function and the
slip77 key derivation are modelled as an abstract structure of pure
functions, exactly as the spec treats them (an opaque capability).
-/

namespace LiquidPset

/-- A byte string: a list of byte values. -/
abbrev Bytes := List Nat

/-- Little-endian fixed-width encoding of a natural number
(`int.to_bytes(w, "little")`). -/
def toLE : Nat → Nat → Bytes
  | 0, _ => []
  | w + 1, n => n % 256 :: toLE w (n / 256)

/-- Little-endian decoding of a byte string (`int.from_bytes(v, "little")`). -/
def fromLE : Bytes → Nat :=
  fun bs => bs.foldr (fun b acc => b + 256 * acc) 0

/-- Bitcoin compact-size encoding of a length (the external `compact`
codec primitive). -/
def serCompact (n : Nat) : Bytes :=
  if n < 0xfd then [n]
  else if n < 0x10000 then 0xfd :: toLE 2 n
  else if n < 0x100000000 then 0xfe :: toLE 4 n
  else 0xff :: toLE 8 n

/-- Compact-size decoding from the front of a stream; returns the decoded
number and the remaining stream. -/
def readCompact : Bytes → Option (Nat × Bytes)
  | [] => none
  | b :: rest =>
    if b < 0xfd then some (b, rest)
    else
      let w : Nat := if b = 0xfd then 2 else if b = 0xfe then 4 else 8
      if rest.length < w then none
      else some (fromLE (rest.take w), rest.drop w)

/-- `ser_string`: compact-size length prefix followed by the raw bytes. -/
def serString (s : Bytes) : Bytes :=
  serCompact s.length ++ s

/-- `read_string`: reads a compact-size length then that many bytes;
returns the bytes and the remaining stream. -/
def readString (stream : Bytes) : Option (Bytes × Bytes) := do
  let (n, rest) ← readCompact stream
  if rest.length < n then none
  else some (rest.take n, rest.drop n)

/-- `skip_string`: reads and discards a length-prefixed byte string,
returning only the remaining stream. -/
def skipString (stream : Bytes) : Option Bytes :=
  (readString stream).map Prod.snd

/-- Substring containment of one byte sequence in another: models the
Python `in` operator on `bytes` (`b"\xfc..." in k`), which tests for the
pattern occurring anywhere, not only as a prefix. -/
def startsWithSeq : Bytes → Bytes → Bool
  | [], _ => true
  | _ :: _, [] => false
  | p :: ps, b :: bs => p = b && startsWithSeq ps bs

/-- `containsSeq pat s` is true when `pat` occurs contiguously anywhere
inside `s` (Python `pat in s` for bytes). -/
def containsSeq (pat : Bytes) : Bytes → Bool
  | [] => pat.isEmpty
  | b :: bs => startsWithSeq pat (b :: bs) || containsSeq pat bs

/-- Errors raised by the embedded operations: `assertionFailed` models a
failing Python `assert`; the other constructors model the `PSBTError`
messages raised in `pset.py` ("Invalid commitments", "Blinding pubkey
required", "Nothing to blind"). -/
inductive PErr
  | assertionFailed
  | invalidCommitments
  | blindingPubkeyRequired
  | nothingToBlind
deriving DecidableEq

/-- The value carried by a liquid transaction output: a plaintext 64-bit
amount for unconfidential outputs, or a serialized Pedersen commitment
for confidential ones (in Python the same attribute holds an `int` or a
`bytes`). -/
inductive LValue
  | plain (n : Nat)
  | conf (b : Bytes)
deriving DecidableEq

/-- Modelled from the spec: the referenced UTXO / liquid transaction
output (`LTransactionOutput` of `liquid/transaction.py`, which is not
under src/): asset (32-byte tag or 33-byte commitment), value (plaintext
or commitment), script, and the on-chain ECDH public key. -/
structure LTransactionOutput where
  asset : Bytes
  value : LValue
  script_pubkey : Bytes
  ecdh_pubkey : Option Bytes
deriving DecidableEq

/-- Modelled from the spec: the underlying transaction, reduced to the
ordered list of its outputs (the only part `PSET.fee` reads). -/
structure LTransaction where
  vout : List LTransactionOutput
deriving DecidableEq

/-- Result of the range-proof rewind operation (`unblind` of
`liquid/transaction.py`, consumed as an external capability): the
recovered plaintext, blinding factors, embedded message and value bounds. -/
structure UnblindResult where
  value : Nat
  asset : Bytes
  vbf : Bytes
  abf : Bytes
  extra : Bytes
  min_value : Nat
  max_value : Nat

/-- The external commitment engine and codec capabilities consumed by
`pset.py` (secp256k1-zkp operations, tagged hash, slip77 blinding-key
derivation, range-proof rewind), modelled as a record of pure functions
over byte strings, exactly as the spec's section on the commitment
engine treats them. -/
structure Engine where
  tagged_hash : Bytes → Bytes → Bytes
  blinding_key : Bytes → Bytes → Bytes
  unblind : Option Bytes → Bytes → Bytes → LValue → Bytes → Bytes → UnblindResult
  generator_generate_blinded : Bytes → Bytes → Bytes
  generator_generate : Bytes → Bytes
  generator_parse : Bytes → Bytes
  generator_serialize : Bytes → Bytes
  pedersen_commit : Bytes → Nat → Bytes → Bytes
  pedersen_commitment_parse : LValue → Bytes
  pedersen_commitment_serialize : Bytes → Bytes
  pedersen_blind_generator_blind_sum : List LValue → List Bytes → List Bytes → Nat → Bytes
  surjectionproof_init : List Bytes → Bytes → Bytes → Bytes × Nat
  surjectionproof_generate : Bytes → Nat → List Bytes → Bytes → Bytes → Bytes → Bytes
  surjectionproof_serialize : Bytes → Bytes
  rangeproof_sign : Bytes → Nat → Bytes → Bytes → Bytes → Bytes → Bytes → Bytes
  ec_pubkey_parse : Bytes → Bytes
  ec_pubkey_tweak_mul : Bytes → Bytes → Bytes
  ec_pubkey_serialize : Bytes → Bytes
  privkey_sec : Bytes → Bytes
  sha256 : Bytes → Bytes

/-- The proprietary key marker `fc 08 "elements"` (legacy namespace). -/
def elementsMarker : Bytes := [0xfc, 0x08, 101, 108, 101, 109, 101, 110, 116, 115]

/-- The proprietary key marker `fc 04 "pset"` (v2 namespace). -/
def psetMarker : Bytes := [0xfc, 0x04, 112, 115, 101, 116]

/-- A full legacy-namespace key: marker followed by the subtype byte. -/
def kElements (sub : Nat) : Bytes := elementsMarker ++ [sub]

/-- A full v2-namespace key: marker followed by the subtype byte. -/
def kPset (sub : Nat) : Bytes := psetMarker ++ [sub]

/-- ASCII bytes of the tagged-hash tag `liquid/txseed`. -/
def tagTxseed : Bytes := [108, 105, 113, 117, 105, 100, 47, 116, 120, 115, 101, 101, 100]

/-- ASCII bytes of the tagged-hash tag `liquid/abf`. -/
def tagAbf : Bytes := [108, 105, 113, 117, 105, 100, 47, 97, 98, 102]

/-- ASCII bytes of the tagged-hash tag `liquid/vbf`. -/
def tagVbf : Bytes := [108, 105, 113, 117, 105, 100, 47, 118, 98, 102]

/-- ASCII bytes of the tagged-hash tag `liquid/surjection_proof`. -/
def tagSurj : Bytes :=
  [108, 105, 113, 117, 105, 100, 47, 115, 117, 114, 106, 101, 99, 116, 105, 111, 110, 95,
   112, 114, 111, 111, 102]

/-- ASCII bytes of the tagged-hash tag `liquid/range_proof`. -/
def tagRange : Bytes :=
  [108, 105, 113, 117, 105, 100, 47, 114, 97, 110, 103, 101, 95, 112, 114, 111, 111, 102]

/-- Python truthiness of an optional byte string: `None` and the empty
byte string are falsy. -/
def truthyB : Option Bytes → Bool
  | some b => !b.isEmpty
  | none => false

/-- Python truthiness of an optional integer: `None` and `0` are falsy. -/
def truthyN : Option Nat → Bool
  | some n => n != 0
  | none => false

/-- Unwraps an optional byte string, defaulting to the empty string (used
where the Python code passes a field that is known present at that point
directly into an engine call; on the unreachable `None` path Python would
raise a `TypeError` inside the engine). -/
def orD (o : Option Bytes) : Bytes := o.getD []

/-- Python `a or b` on two optional byte strings: `a` unless it is falsy. -/
def truthyOr (a b : Option Bytes) : Option Bytes :=
  match a with
  | some x => if x.isEmpty then b else some x
  | none => b

/-- 32 zero bytes (`b"\x00" * 32`). -/
def zero32 : Bytes := List.replicate 32 0

/-- Python `sc.asset_blinding_factor or b"\x00"*32`: the stored factor
unless falsy, else 32 zero bytes. -/
def orZero32 (o : Option Bytes) : Bytes :=
  match o with
  | some b => if b.isEmpty then zero32 else b
  | none => zero32

/-- Python `b[-32:]`: the last 32 bytes of a byte string (the whole
string when it is shorter). -/
def last32 (b : Bytes) : Bytes := b.drop (b.length - 32)

/-- The per-input confidential record `LInputScope`: the liquid-specific
fields of `pset.py` plus the base-class pieces the liquid code reads
(`txid`/`vout`/`utxo`, the base verified flag, the compress mode, and the
unknown-fields map). `base_handled` is modelled from the spec: it stands
for the base record's generic key handling (`super().read_value`), which
is outside the liquid layer; keys routed there are recorded verbatim. -/
@[ext]
structure LInputScope where
  txid : Bytes
  vout : Nat
  utxo : LTransactionOutput
  verified : Bool
  compress : Bool
  unknown : List (Bytes × Bytes)
  base_handled : List (Bytes × Bytes)
  value : Option Nat
  value_blinding_factor : Option Bytes
  asset : Option Bytes
  asset_blinding_factor : Option Bytes
  range_proof : Option Bytes
deriving DecidableEq

/-- The per-output confidential record `LOutputScope`: the liquid-specific
fields of `pset.py` plus the base-class pieces the liquid code reads
(script, plaintext value, verified flag, compress mode, unknown map).
`base_handled` is modelled from the spec as for `LInputScope`. -/
@[ext]
structure LOutputScope where
  script_pubkey : Bytes
  value : Option Nat
  verified : Bool
  compress : Bool
  unknown : List (Bytes × Bytes)
  base_handled : List (Bytes × Bytes)
  value_commitment : Option Bytes
  value_blinding_factor : Option Bytes
  asset_commitment : Option Bytes
  asset_blinding_factor : Option Bytes
  range_proof : Option Bytes
  surjection_proof : Option Bytes
  ecdh_pubkey : Option Bytes
  blinding_pubkey : Option Bytes
  asset : Option Bytes
  blinder_index : Option Nat
deriving DecidableEq

/-- The confidential transaction container `PSET`: ordered input and
output records plus the underlying transaction. -/
structure PSET where
  inputs : List LInputScope
  outputs : List LOutputScope
  tx : LTransaction
deriving DecidableEq

/-- A fresh UTXO placeholder (default `LTransactionOutput`). -/
def blankUtxo : LTransactionOutput :=
  { asset := [], value := .plain 0, script_pubkey := [], ecdh_pubkey := none }

/-- A freshly constructed input record (all liquid fields `None`), with
the given compress mode. -/
def blankInput (c : Bool) : LInputScope :=
  { txid := [], vout := 0, utxo := blankUtxo, verified := false, compress := c,
    unknown := [], base_handled := [], value := none, value_blinding_factor := none,
    asset := none, asset_blinding_factor := none, range_proof := none }

/-- A freshly constructed output record (all liquid fields `None`), with
the given compress mode. -/
def blankOutput (c : Bool) : LOutputScope :=
  { script_pubkey := [], value := none, verified := false, compress := c,
    unknown := [], base_handled := [], value_commitment := none,
    value_blinding_factor := none, asset_commitment := none,
    asset_blinding_factor := none, range_proof := none, surjection_proof := none,
    ecdh_pubkey := none, blinding_pubkey := none, asset := none, blinder_index := none }

/-- `LInputScope.read_value(stream, k)`: keys containing neither
proprietary marker go to the base record's generic handling; the v2 key
`fc 04 "pset" 0e` is the input range proof (skipped, not retained, in
compress mode); the legacy subtypes `00..03` are plaintext value
(little-endian), value blinding factor, plaintext asset and asset
blinding factor; any other marker-bearing key is kept in `unknown`. -/
def LInputScope.read_value (sc : LInputScope) (k : Bytes) (stream : Bytes) :
    Option (LInputScope × Bytes) :=
  if !containsSeq elementsMarker k && !containsSeq psetMarker k then
    match readString stream with
    | none => none
    | some (v, rest) => some ({ sc with base_handled := sc.base_handled ++ [(k, v)] }, rest)
  else if k == kPset 0x0e then
    if sc.compress then
      match skipString stream with
      | none => none
      | some rest => some (sc, rest)
    else
      match readString stream with
      | none => none
      | some (v, rest) => some ({ sc with range_proof := some v }, rest)
  else
    match readString stream with
    | none => none
    | some (v, rest) =>
      if k == kElements 0x00 then some ({ sc with value := some (fromLE v) }, rest)
      else if k == kElements 0x01 then some ({ sc with value_blinding_factor := some v }, rest)
      else if k == kElements 0x02 then some ({ sc with asset := some v }, rest)
      else if k == kElements 0x03 then some ({ sc with asset_blinding_factor := some v }, rest)
      else some ({ sc with unknown := sc.unknown ++ [(k, v)] }, rest)

/-- The pure field update performed by `LInputScope.read_value` once the
value bytes `v` have been extracted from the stream (used to state the
serialization lemmas). -/
def LInputScope.apply_kv (sc : LInputScope) (k : Bytes) (v : Bytes) : LInputScope :=
  if !containsSeq elementsMarker k && !containsSeq psetMarker k then
    { sc with base_handled := sc.base_handled ++ [(k, v)] }
  else if k == kPset 0x0e then
    if sc.compress then sc else { sc with range_proof := some v }
  else if k == kElements 0x00 then { sc with value := some (fromLE v) }
  else if k == kElements 0x01 then { sc with value_blinding_factor := some v }
  else if k == kElements 0x02 then { sc with asset := some v }
  else if k == kElements 0x03 then { sc with asset_blinding_factor := some v }
  else { sc with unknown := sc.unknown ++ [(k, v)] }

/-- `LOutputScope.read_value(stream, k)`: keys containing neither marker
go to the base generic handling; range/surjection proof keys (legacy `04`
and `05`, v2 `04` and `05`) are skipped in compress mode; the remaining
recognized subtypes store the commitment, blinding-factor, pubkey,
plaintext-asset and blinder-index fields per the namespace table; any
other marker-bearing key is kept in `unknown`. -/
def LOutputScope.read_value (sc : LOutputScope) (k : Bytes) (stream : Bytes) :
    Option (LOutputScope × Bytes) :=
  if !containsSeq elementsMarker k && !containsSeq psetMarker k then
    match readString stream with
    | none => none
    | some (v, rest) => some ({ sc with base_handled := sc.base_handled ++ [(k, v)] }, rest)
  else if k == kElements 0x04 || k == kPset 0x04 then
    if sc.compress then
      match skipString stream with
      | none => none
      | some rest => some (sc, rest)
    else
      match readString stream with
      | none => none
      | some (v, rest) => some ({ sc with range_proof := some v }, rest)
  else if k == kElements 0x05 || k == kPset 0x05 then
    if sc.compress then
      match skipString stream with
      | none => none
      | some rest => some (sc, rest)
    else
      match readString stream with
      | none => none
      | some (v, rest) => some ({ sc with surjection_proof := some v }, rest)
  else
    match readString stream with
    | none => none
    | some (v, rest) =>
      if k == kElements 0x00 || k == kPset 0x01 then some ({ sc with value_commitment := some v }, rest)
      else if k == kElements 0x01 then some ({ sc with value_blinding_factor := some v }, rest)
      else if k == kPset 0x02 then some ({ sc with asset := some v }, rest)
      else if k == kElements 0x02 || k == kPset 0x03 then some ({ sc with asset_commitment := some v }, rest)
      else if k == kElements 0x03 then some ({ sc with asset_blinding_factor := some v }, rest)
      else if k == kElements 0x06 || k == kPset 0x06 then some ({ sc with blinding_pubkey := some v }, rest)
      else if k == kElements 0x07 || k == kPset 0x07 then some ({ sc with ecdh_pubkey := some v }, rest)
      else if k == kPset 0x08 then some ({ sc with blinder_index := some (fromLE v) }, rest)
      else some ({ sc with unknown := sc.unknown ++ [(k, v)] }, rest)

/-- The pure field update performed by `LOutputScope.read_value` once the
value bytes `v` have been extracted from the stream. -/
def LOutputScope.apply_kv (sc : LOutputScope) (k : Bytes) (v : Bytes) : LOutputScope :=
  if !containsSeq elementsMarker k && !containsSeq psetMarker k then
    { sc with base_handled := sc.base_handled ++ [(k, v)] }
  else if k == kElements 0x04 || k == kPset 0x04 then
    if sc.compress then sc else { sc with range_proof := some v }
  else if k == kElements 0x05 || k == kPset 0x05 then
    if sc.compress then sc else { sc with surjection_proof := some v }
  else if k == kElements 0x00 || k == kPset 0x01 then { sc with value_commitment := some v }
  else if k == kElements 0x01 then { sc with value_blinding_factor := some v }
  else if k == kPset 0x02 then { sc with asset := some v }
  else if k == kElements 0x02 || k == kPset 0x03 then { sc with asset_commitment := some v }
  else if k == kElements 0x03 then { sc with asset_blinding_factor := some v }
  else if k == kElements 0x06 || k == kPset 0x06 then { sc with blinding_pubkey := some v }
  else if k == kElements 0x07 || k == kPset 0x07 then { sc with ecdh_pubkey := some v }
  else if k == kPset 0x08 then { sc with blinder_index := some (fromLE v) }
  else { sc with unknown := sc.unknown ++ [(k, v)] }

/-- Serializes a list of key-value pairs, each as a length-prefixed key
followed by a length-prefixed value. -/
def writePairs (ps : List (Bytes × Bytes)) : Bytes :=
  (ps.map fun kv => serString kv.1 ++ serString kv.2).flatten

/-- The key-value pair contributed by an optional byte-string field: one
pair under its key when the field is set, nothing otherwise (one per
`if self.x is not None:` block of `write_to`). -/
def optPairB (o : Option Bytes) (k : Bytes) : List (Bytes × Bytes) :=
  match o with
  | some v => [(k, v)]
  | none => []

/-- The key-value pair contributed by an optional integer field,
serialized little-endian with the given width. -/
def optPairN (o : Option Nat) (k : Bytes) (w : Nat) : List (Bytes × Bytes) :=
  match o with
  | some n => [(k, toLE w n)]
  | none => []

/-- The ordered liquid-specific key-value pairs emitted by
`LInputScope.write_to` (source order: value `00`, value blinding factor
`01`, asset `02`, asset blinding factor `03`, then the v2 input range
proof `fc 04 "pset" 0e`). -/
def inPairs (sc : LInputScope) : List (Bytes × Bytes) :=
  optPairN sc.value (kElements 0x00) 8 ++
  optPairB sc.value_blinding_factor (kElements 0x01) ++
  optPairB sc.asset (kElements 0x02) ++
  optPairB sc.asset_blinding_factor (kElements 0x03) ++
  optPairB sc.range_proof (kPset 0x0e)

/-- `LInputScope.write_to`: the base record's bytes (the base layer is
outside the liquid extension and contributes nothing here) followed by
the liquid-specific key-value pairs and, unless suppressed, the `00`
separator. Python writes `value.to_bytes(8, "little")`, which raises for
values at or above `2^64`; here `toLE 8` truncates instead, so round-trip
statements carry that bound as a hypothesis. -/
def LInputScope.write_to (sc : LInputScope) (skip_sep : Bool := false) : Bytes :=
  writePairs (inPairs sc) ++ (if skip_sep then [] else [0x00])

/-- The ordered liquid-specific key-value pairs emitted by
`LOutputScope.write_to` for a given write-time `version` (source order:
plaintext asset, value commitment, value blinding factor, asset
commitment, asset blinding factor, blinding pubkey, ECDH pubkey, range
proof, surjection proof, blinder index; the plaintext asset is written
only when `version == 2`, and the blinder index always uses the v2 key). -/
def outPairs (sc : LOutputScope) (version : Option Nat) : List (Bytes × Bytes) :=
  (if version = some 2 then optPairB sc.asset (kPset 0x02) else []) ++
  optPairB sc.value_commitment (if version = some 2 then kPset 0x01 else kElements 0x00) ++
  optPairB sc.value_blinding_factor (kElements 0x01) ++
  optPairB sc.asset_commitment (if version = some 2 then kPset 0x03 else kElements 0x02) ++
  optPairB sc.asset_blinding_factor (kElements 0x03) ++
  optPairB sc.blinding_pubkey (if version = some 2 then kPset 0x06 else kElements 0x06) ++
  optPairB sc.ecdh_pubkey (if version = some 2 then kPset 0x07 else kElements 0x07) ++
  optPairB sc.range_proof (if version = some 2 then kPset 0x04 else kElements 0x04) ++
  optPairB sc.surjection_proof (if version = some 2 then kPset 0x05 else kElements 0x05) ++
  optPairN sc.blinder_index (kPset 0x08) 4

/-- `LOutputScope.write_to`: the base record's bytes (nothing here)
followed by the liquid-specific key-value pairs for the chosen version
and, unless suppressed, the `00` separator. `blinder_index.to_bytes(4)`
raises in Python at or above `2^32`; `toLE 4` truncates instead. -/
def LOutputScope.write_to (sc : LOutputScope) (version : Option Nat := none)
    (skip_sep : Bool := false) : Bytes :=
  writePairs (outPairs sc version) ++ (if skip_sep then [] else [0x00])

/-- Modelled from the spec: the base container's record-parsing loop
(`psbt.py`, not under src/) — read a length-prefixed key; an empty key
(the `00` terminator) ends the record; otherwise hand key and stream to
the scope's `read_value` and continue. `fuel` bounds the recursion; each
iteration consumes at least one byte. -/
def parseFields (readv : α → Bytes → Bytes → Option (α × Bytes)) :
    Nat → α → Bytes → Option (α × Bytes)
  | 0, _, _ => none
  | fuel + 1, sc, stream =>
    match readString stream with
    | none => none
    | some (k, rest) =>
      if k.isEmpty then some (sc, rest)
      else
        match readv sc k rest with
        | none => none
        | some (sc2, rest2) => parseFields readv fuel sc2 rest2

/-- Parses one input record from the stream into a fresh record with the
given compress mode. -/
def parseInputScope (c : Bool) (stream : Bytes) : Option (LInputScope × Bytes) :=
  parseFields LInputScope.read_value (stream.length + 1) (blankInput c) stream

/-- Parses one output record from the stream into a fresh record with the
given compress mode. -/
def parseOutputScope (c : Bool) (stream : Bytes) : Option (LOutputScope × Bytes) :=
  parseFields LOutputScope.read_value (stream.length + 1) (blankOutput c) stream

/-- `LOutputScope.is_blinded`: both commitments present (Python
truthiness of `value_commitment and asset_commitment`). -/
def LOutputScope.is_blinded (sc : LOutputScope) : Bool :=
  truthyB sc.value_commitment && truthyB sc.asset_commitment

/-- `LOutputScope.verify()`: resets the verified flag, re-derives the
asset generator and the Pedersen commitment from the plaintext fields and
blinding factors when both a plaintext and a commitment are present
(Python truthiness), and compares them with the stored commitments;
returns the updated record together with `some` error on failure (the
reset flag survives a raise, as the Python object does). -/
def LOutputScope.verify (E : Engine) (sc0 : LOutputScope) : LOutputScope × Option PErr :=
  let sc := { sc0 with verified := false }
  let assetStep : Except PErr (Option Bytes) :=
    if truthyB sc.asset && truthyB sc.asset_commitment then
      if !truthyB sc.asset_blinding_factor then .error .invalidCommitments
      else
        let gen := E.generator_generate_blinded (orD sc.asset) (orD sc.asset_blinding_factor)
        if orD sc.asset_commitment ≠ E.generator_serialize gen then .error .invalidCommitments
        else .ok (some gen)
    else .ok none
  match assetStep with
  | .error e => (sc, some e)
  | .ok gen =>
    if truthyN sc.value && truthyB sc.value_commitment then
      match gen with
      | none => (sc, some .invalidCommitments)
      | some g =>
        let vc := E.pedersen_commit (orD sc.value_blinding_factor) (sc.value.getD 0) g
        if orD sc.value_commitment ≠ E.pedersen_commitment_serialize vc then
          (sc, some .invalidCommitments)
        else ({ sc with verified := true }, none)
    else ({ sc with verified := true }, none)

/-- `LInputScope.unblind(blinding_key)`: returns the record unchanged when
no range proof is stored; otherwise derives the per-script key (slip77),
rewinds the range proof against the referenced UTXO, checks the recovered
`(asset, abf)` against the UTXO's asset generator and the recovered
`(vbf, value)` against the UTXO's value commitment (failing `assert`s on
mismatch), and only then stores the four recovered fields. -/
def LInputScope.unblind (E : Engine) (sc : LInputScope) (blinding_key : Bytes) :
    Except PErr LInputScope :=
  match sc.range_proof with
  | none => .ok sc
  | some rp =>
    let pk := E.blinding_key blinding_key sc.utxo.script_pubkey
    let r := E.unblind sc.utxo.ecdh_pubkey pk rp sc.utxo.value sc.utxo.asset sc.utxo.script_pubkey
    let gen := E.generator_generate_blinded r.asset r.abf
    if gen ≠ E.generator_parse sc.utxo.asset then .error .assertionFailed
    else
      let cmt := E.pedersen_commit r.vbf r.value gen
      if cmt ≠ E.pedersen_commitment_parse sc.utxo.value then .error .assertionFailed
      else
        .ok { sc with asset := some r.asset, value := some r.value,
                      asset_blinding_factor := some r.abf,
                      value_blinding_factor := some r.vbf }

/-- `LOutputScope.reblind(nonce, blinding_pubkey, extra_message)`: no-op
when the output is not blinded; requires a truthy blinding pubkey
(argument or stored); derives the on-chain ECDH pubkey from the nonce,
the proof-encryption nonce by double-hashing the tweaked recipient key,
builds the message `asset[-32:] + abf + extra`, and regenerates the range
proof over the stored value commitment. -/
def LOutputScope.reblind (E : Engine) (sc : LOutputScope) (nonce : Bytes)
    (blinding_pubkey : Option Bytes := none) (extra_message : Bytes := []) :
    Except PErr LOutputScope :=
  if !sc.is_blinded then .ok sc
  else
    let bpk := truthyOr blinding_pubkey sc.blinding_pubkey
    if !truthyB bpk then .error .blindingPubkeyRequired
    else
      let pub := E.ec_pubkey_parse (orD bpk)
      let ecdh_pub := E.privkey_sec nonce
      let sec := E.ec_pubkey_serialize (E.ec_pubkey_tweak_mul pub nonce)
      let ecdh_nonce := E.sha256 (E.sha256 sec)
      let msg := last32 (orD sc.asset) ++ orD sc.asset_blinding_factor ++ extra_message
      let rp := E.rangeproof_sign ecdh_nonce (sc.value.getD 0)
        (E.pedersen_commitment_parse (.conf (orD sc.value_commitment)))
        (orD sc.value_blinding_factor) msg sc.script_pubkey
        (E.generator_parse (orD sc.asset_commitment))
      .ok { sc with ecdh_pubkey := some ecdh_pub, range_proof := some rp }

/-- `PSET.is_verified`: conjunction of every input's and every output's
individually-verified flag (`all([sc.is_verified for sc in inputs + outputs])`). -/
def PSET.is_verified (p : PSET) : Bool :=
  ((p.inputs.map fun sc => sc.verified) ++ (p.outputs.map fun sc => sc.verified)).all fun b => b

/-- Runs `LOutputScope.verify` over a list of outputs in order, stopping
at the first failure; already-verified prefixes keep their updated state,
as the mutated Python objects do when an exception propagates. -/
def verifyOuts (E : Engine) : List LOutputScope → List LOutputScope × Option PErr
  | [] => ([], none)
  | o :: rest =>
    match LOutputScope.verify E o with
    | (o2, some e) => (o2 :: rest, some e)
    | (o2, none) =>
      let r := verifyOuts E rest
      (o2 :: r.1, r.2)

/-- `PSET.verify()`: first the base container's verify (modelled from the
spec as an opaque operation `superVerify`, since `psbt.py` is not under
src/), then `verify()` on every output record; on success returns
`is_verified` of the resulting container. -/
def PSET.verify (E : Engine) (superVerify : PSET → PSET × Option PErr) (p : PSET) :
    PSET × Except PErr Bool :=
  match superVerify p with
  | (p1, some e) => (p1, .error e)
  | (p1, none) =>
    let r := verifyOuts E p1.outputs
    let p2 := { p1 with outputs := r.1 }
    match r.2 with
    | some e => (p2, .error e)
    | none => (p2, .ok p2.is_verified)

/-- `PSET.fee()`: sums the plaintext values of the transaction outputs
whose script is empty; adding a confidential (bytes) value to the
running integer total would raise a `TypeError` in Python, modelled as
`none`. -/
def PSET.fee (p : PSET) : Option Nat :=
  p.tx.vout.foldl
    (fun acc out =>
      match acc with
      | none => none
      | some f =>
        if out.script_pubkey = [] then
          match out.value with
          | .plain n => some (f + n)
          | .conf _ => none
        else some f)
    (some 0)

/-- `PSET.unblind(blinding_key)`: unblinds every input in order; the
first failure propagates, inputs already unblinded keep their state. -/
def unblindIns (E : Engine) (key : Bytes) : List LInputScope → List LInputScope × Option PErr
  | [] => ([], none)
  | i :: rest =>
    match LInputScope.unblind E i key with
    | .error e => (i :: rest, some e)
    | .ok i2 =>
      let r := unblindIns E key rest
      (i2 :: r.1, r.2)

/-- `PSET.unblind` over the whole container. -/
def PSET.unblind (E : Engine) (p : PSET) (key : Bytes) : PSET × Option PErr :=
  let r := unblindIns E key p.inputs
  ({ p with inputs := r.1 }, r.2)

/-- `PSET.txseed(seed)`: asserts the seed is 32 bytes, then tag-hashes the
seed together with every input's reversed txid and vout and every
output's serialized script. -/
def PSET.txseed (E : Engine) (p : PSET) (seed : Bytes) : Except PErr Bytes :=
  if seed.length ≠ 32 then .error .assertionFailed
  else
    let data :=
      (p.inputs.map fun inp => inp.txid.reverse ++ toLE 4 inp.vout).flatten ++
      (p.outputs.map fun out => serString out.script_pubkey).flatten
    .ok (E.tagged_hash tagTxseed (seed ++ data))

/-- An output qualifies for blinding when it has a blinding pubkey and a
known value (`is None` tests, not truthiness, in `PSET.blind`). -/
def blindQual (o : LOutputScope) : Bool :=
  o.blinding_pubkey.isSome && o.value.isSome

/-- First pass of `PSET.blind`: assigns tagged-hash asset/value blinding
factors to every qualifying output, indexed by output position. -/
def blindPass1 (E : Engine) (txseed : Bytes) (outs : List LOutputScope) : List LOutputScope :=
  outs.enum.map fun iout =>
    if blindQual iout.2 then
      { iout.2 with
        asset_blinding_factor := some (E.tagged_hash tagAbf (txseed ++ toLE 4 iout.1)),
        value_blinding_factor := some (E.tagged_hash tagVbf (txseed ++ toLE 4 iout.1)) }
    else iout.2

/-- Replaces the value blinding factor of the last qualifying output
(`blinding_outs[-1]`, which aliases the corresponding element of
`self.outputs`). -/
def setLastQual (v : Bytes) : List LOutputScope → List LOutputScope
  | [] => []
  | o :: rest =>
    if rest.any blindQual then o :: setLastQual v rest
    else if blindQual o then { o with value_blinding_factor := some v } :: rest
    else o :: rest

/-- The input asset tags and generators used for surjection proofs: a
known plaintext asset contributes its tag and the parsed UTXO generator;
otherwise a 32-byte (unconfidential) UTXO asset contributes itself and a
freshly generated unblinded generator; other inputs are excluded. -/
def inTagsGens (E : Engine) (inputs : List LInputScope) : List Bytes × List Bytes :=
  inputs.foldr
    (fun inp acc =>
      if truthyB inp.asset then
        (orD inp.asset :: acc.1, E.generator_parse inp.utxo.asset :: acc.2)
      else if inp.utxo.asset.length = 32 then
        (inp.utxo.asset :: acc.1, E.generator_generate inp.utxo.asset :: acc.2)
      else acc)
    ([], [])

/-- `sc.value or sc.utxo.value` for an input when building the balancing
value list (truthiness: a `0` or absent plaintext value falls back to the
UTXO's recorded value). -/
def inVal (sc : LInputScope) : LValue :=
  match sc.value with
  | some n => if n = 0 then sc.utxo.value else .plain n
  | none => sc.utxo.value

/-- The commitment-generation step of `PSET.blind` for one output (skipped
unless blinding pubkey, value and asset blinding factor are all present):
derives and stores the asset commitment, the value commitment and the
surjection proof, then regenerates the range proof via `reblind`; on a
`reblind` failure the partially updated output is kept (Python mutation
survives the raise). -/
def blindOut (E : Engine) (txseed : Bytes) (in_tags in_gens : List Bytes)
    (abfs : List Bytes) (i : Nat) (out : LOutputScope) : LOutputScope × Option PErr :=
  if out.blinding_pubkey = none || out.value = none || out.asset_blinding_factor = none then
    (out, none)
  else
    let gen := E.generator_generate_blinded (orD out.asset) (orD out.asset_blinding_factor)
    let out1 := { out with asset_commitment := some (E.generator_serialize gen) }
    let vc := E.pedersen_commit (orD out1.value_blinding_factor) (out1.value.getD 0) gen
    let out2 := { out1 with value_commitment := some (E.pedersen_commitment_serialize vc) }
    let proof_seed := E.tagged_hash tagSurj (txseed ++ toLE 4 i)
    let pin := E.surjectionproof_init in_tags (orD out2.asset) proof_seed
    let proof := E.surjectionproof_generate pin.1 pin.2 in_gens gen
      (abfs.getD pin.2 []) (orD out2.asset_blinding_factor)
    let out3 := { out2 with surjection_proof := some (E.surjectionproof_serialize proof) }
    let nonce := E.tagged_hash tagRange (txseed ++ toLE 4 i)
    match LOutputScope.reblind E out3 nonce with
    | .error e => (out3, some e)
    | .ok out4 => (out4, none)

/-- Runs `blindOut` over the outputs in order with their indices, stopping
at the first failure. -/
def blindOuts (E : Engine) (txseed : Bytes) (in_tags in_gens : List Bytes)
    (abfs : List Bytes) : Nat → List LOutputScope → List LOutputScope × Option PErr
  | _, [] => ([], none)
  | i, o :: rest =>
    match blindOut E txseed in_tags in_gens abfs i o with
    | (o2, some e) => (o2 :: rest, some e)
    | (o2, none) =>
      let r := blindOuts E txseed in_tags in_gens abfs (i + 1) rest
      (o2 :: r.1, r.2)

/-- `PSET.blind(seed)`: derives the transaction seed, assigns blinding
factors to every qualifying output, raises "Nothing to blind" when none
qualifies, solves the last value blinding factor with the balancing
engine call, collects the input tags and generators, and generates all
commitments and proofs per output. The returned container reflects every
mutation performed before a raise. -/
def PSET.blind (E : Engine) (p : PSET) (seed : Bytes) : PSET × Option PErr :=
  match PSET.txseed E p seed with
  | .error e => (p, some e)
  | .ok txseed =>
    let outs1 := blindPass1 E txseed p.outputs
    let blinding_outs := outs1.filter blindQual
    if blinding_outs.isEmpty then ({ p with outputs := outs1 }, some .nothingToBlind)
    else
      let vals := p.inputs.map inVal ++
        blinding_outs.map fun sc => LValue.plain (sc.value.getD 0)
      let abfs := (p.inputs.map fun sc => orZero32 sc.asset_blinding_factor) ++
        (blinding_outs.map fun sc => orZero32 sc.asset_blinding_factor)
      let vbfs := (p.inputs.map fun sc => orZero32 sc.value_blinding_factor) ++
        (blinding_outs.map fun sc => orZero32 sc.value_blinding_factor)
      let last_vbf := E.pedersen_blind_generator_blind_sum vals abfs vbfs p.inputs.length
      let outs2 := setLastQual last_vbf outs1
      let tg := inTagsGens E p.inputs
      let r := blindOuts E txseed tg.1 tg.2 abfs 0 outs2
      ({ p with outputs := r.1 }, r.2)

/-- The plaintext amount of an unconfidential value (`0` on the
confidential case, which the fee theorems exclude by hypothesis). -/
def plainVal : LValue → Nat
  | .plain n => n
  | .conf _ => 0

/-- Length bound on an optional byte field: Python's compact-size codec
(and `to_bytes`) handles buffers below `2^64` bytes; the round-trip
statements assume this of every serialized field. -/
def bLen (o : Option Bytes) : Prop := ∀ v ∈ o, v.length < 2 ^ 64

/-- Serializability bounds for an output record: every byte field fits the
compact-size codec and the blinder index fits 4 little-endian bytes. -/
def outWf (r : LOutputScope) : Prop :=
  bLen r.value_commitment ∧ bLen r.value_blinding_factor ∧ bLen r.asset_commitment ∧
  bLen r.asset_blinding_factor ∧ bLen r.blinding_pubkey ∧ bLen r.ecdh_pubkey ∧
  bLen r.range_proof ∧ bLen r.surjection_proof ∧ bLen r.asset ∧
  (∀ n ∈ r.blinder_index, n < 256 ^ 4)

/-- Serializability bounds for an input record: every byte field fits the
compact-size codec and the plaintext value fits 8 little-endian bytes. -/
def inWf (r : LInputScope) : Prop :=
  (∀ n ∈ r.value, n < 256 ^ 8) ∧ bLen r.value_blinding_factor ∧ bLen r.asset ∧
  bLen r.asset_blinding_factor ∧ bLen r.range_proof

/-- A concrete commitment engine instance (simple injective byte
functions), used to evaluate the theorems on concrete inputs. -/
def dummyEngine : Engine where
  tagged_hash := fun tag data => tag ++ data
  blinding_key := fun mk script => mk ++ script
  unblind := fun _ _ _ _ _ _ =>
    { value := 5, asset := List.replicate 32 7, vbf := List.replicate 32 1,
      abf := List.replicate 32 2, extra := [], min_value := 0, max_value := 0 }
  generator_generate_blinded := fun a b => 10 :: (a ++ b)
  generator_generate := fun a => 11 :: a
  generator_parse := fun b => b
  generator_serialize := fun g => g
  pedersen_commit := fun vbf n gen => n :: (vbf ++ gen)
  pedersen_commitment_parse := fun v =>
    match v with
    | .conf b => b
    | .plain n => [n]
  pedersen_commitment_serialize := fun c => c
  pedersen_blind_generator_blind_sum := fun _ _ _ _ => List.replicate 32 3
  surjectionproof_init := fun _ a seed => (a ++ seed, 0)
  surjectionproof_generate := fun p _ _ _ _ _ => p
  surjectionproof_serialize := fun p => p
  rangeproof_sign := fun nonce n _ _ msg _ _ => nonce ++ toLE 8 n ++ msg
  ec_pubkey_parse := fun b => b
  ec_pubkey_tweak_mul := fun p n => p ++ n
  ec_pubkey_serialize := fun p => p
  privkey_sec := fun n => 2 :: n
  sha256 := fun b => 32 :: b

theorem toLE_length (w : Nat) : ∀ n, (toLE w n).length = w := by
  induction w with
  | zero => intro n; rfl
  | succ w ih => intro n; simp [toLE, ih]

theorem fromLE_cons (b : Nat) (bs : Bytes) : fromLE (b :: bs) = b + 256 * fromLE bs := rfl

theorem fromLE_toLE (w : Nat) : ∀ n, n < 256 ^ w → fromLE (toLE w n) = n := by
  induction w with
  | zero =>
    intro n h
    simp only [pow_zero, Nat.lt_one_iff] at h
    simp [h, toLE, fromLE]
  | succ w ih =>
    intro n h
    have h2 : n / 256 < 256 ^ w := by
      rw [Nat.div_lt_iff_lt_mul (by norm_num)]
      calc n < 256 ^ (w + 1) := h
        _ = 256 ^ w * 256 := by ring
    rw [toLE, fromLE_cons, ih _ h2]
    omega

theorem take_len_append (a b : Bytes) (w : Nat) (h : a.length = w) : (a ++ b).take w = a := by
  subst h; exact List.take_left a b

theorem drop_len_append (a b : Bytes) (w : Nat) (h : a.length = w) : (a ++ b).drop w = b := by
  subst h; exact List.drop_left a b

theorem readCompact_serCompact (n : Nat) (t : Bytes) (hn : n < 2 ^ 64) :
    readCompact (serCompact n ++ t) = some (n, t) := by
  unfold serCompact
  by_cases h1 : n < 0xfd
  · simp [h1, readCompact]
  · by_cases h2 : n < 0x10000
    · simp only [h1, if_false, h2, if_true, List.cons_append, readCompact]
      norm_num
      rw [take_len_append _ _ 2 (toLE_length 2 n), drop_len_append _ _ 2 (toLE_length 2 n),
        fromLE_toLE 2 n (by norm_num; omega)]
      simp [toLE_length]
    · by_cases h3 : n < 0x100000000
      · simp only [h1, if_false, h2, if_false, h3, if_true, List.cons_append, readCompact]
        norm_num
        rw [take_len_append _ _ 4 (toLE_length 4 n), drop_len_append _ _ 4 (toLE_length 4 n),
          fromLE_toLE 4 n (by norm_num; omega)]
        simp [toLE_length]
      · simp only [h1, if_false, h2, if_false, h3, if_false, List.cons_append, readCompact]
        norm_num
        rw [take_len_append _ _ 8 (toLE_length 8 n), drop_len_append _ _ 8 (toLE_length 8 n),
          fromLE_toLE 8 n (by norm_num at hn ⊢; omega)]
        simp [toLE_length]

theorem readString_serString (s t : Bytes) (h : s.length < 2 ^ 64) :
    readString (serString s ++ t) = some (s, t) := by
  unfold serString readString
  rw [List.append_assoc, readCompact_serCompact s.length (s ++ t) h]
  simp only [Option.bind_eq_bind, Option.some_bind]
  rw [if_neg (by simp), List.take_left, List.drop_left]

theorem skipString_serString (s t : Bytes) (h : s.length < 2 ^ 64) :
    skipString (serString s ++ t) = some t := by
  simp [skipString, readString_serString s t h]

theorem in_read_value_ser (sc : LInputScope) (k v rest : Bytes) (hv : v.length < 2 ^ 64) :
    LInputScope.read_value sc k (serString v ++ rest) = some (sc.apply_kv k v, rest) := by
  have hr := readString_serString v rest hv
  have hs := skipString_serString v rest hv
  unfold LInputScope.read_value LInputScope.apply_kv
  rw [hr, hs]
  generalize (!containsSeq elementsMarker k && !containsSeq psetMarker k) = b1
  generalize (k == kPset 0x0e) = b2
  generalize sc.compress = bc
  generalize (k == kElements 0x00) = b3
  generalize (k == kElements 0x01) = b4
  generalize (k == kElements 0x02) = b5
  generalize (k == kElements 0x03) = b6
  cases b1
  · cases b2
    · cases b3
      · cases b4
        · cases b5
          · cases b6
            · rfl
            · rfl
          · rfl
        · rfl
      · rfl
    · cases bc
      · rfl
      · rfl
  · rfl

theorem out_read_value_ser (sc : LOutputScope) (k v rest : Bytes) (hv : v.length < 2 ^ 64) :
    LOutputScope.read_value sc k (serString v ++ rest) = some (sc.apply_kv k v, rest) := by
  have hr := readString_serString v rest hv
  have hs := skipString_serString v rest hv
  unfold LOutputScope.read_value LOutputScope.apply_kv
  rw [hr, hs]
  generalize (!containsSeq elementsMarker k && !containsSeq psetMarker k) = b1
  generalize (k == kElements 0x04 || k == kPset 0x04) = b2
  generalize (k == kElements 0x05 || k == kPset 0x05) = b3
  generalize sc.compress = bc
  generalize (k == kElements 0x00 || k == kPset 0x01) = b4
  generalize (k == kElements 0x01) = b5
  generalize (k == kPset 0x02) = b6
  generalize (k == kElements 0x02 || k == kPset 0x03) = b7
  generalize (k == kElements 0x03) = b8
  generalize (k == kElements 0x06 || k == kPset 0x06) = b9
  generalize (k == kElements 0x07 || k == kPset 0x07) = b10
  generalize (k == kPset 0x08) = b11
  cases b1
  · cases b2
    · cases b3
      · cases b4
        · cases b5
          · cases b6
            · cases b7
              · cases b8
                · cases b9
                  · cases b10
                    · cases b11
                      · rfl
                      · rfl
                    · rfl
                  · rfl
                · rfl
              · rfl
            · rfl
          · rfl
        · rfl
      · cases bc
        · rfl
        · rfl
    · cases bc
      · rfl
      · rfl
  · rfl

theorem serCompact_length_pos (n : Nat) : 0 < (serCompact n).length := by
  unfold serCompact
  split_ifs <;> simp

theorem length_le_writePairs (ps : List (Bytes × Bytes)) : ps.length ≤ (writePairs ps).length := by
  induction ps with
  | nil => simp [writePairs]
  | cons kv ps ih =>
    have h1 := serCompact_length_pos kv.1.length
    simp only [writePairs, List.map_cons, List.flatten_cons, List.length_append,
      List.length_cons, serString] at ih ⊢
    omega

theorem parseFields_writePairs {α : Type} (readv : α → Bytes → Bytes → Option (α × Bytes))
    (applyf : α → Bytes → Bytes → α) (ps : List (Bytes × Bytes)) :
    ∀ (fuel : Nat) (sc : α) (rest : Bytes), ps.length < fuel →
      (∀ kv ∈ ps, kv.1 ≠ [] ∧ kv.1.length < 2 ^ 64 ∧
        ∀ (sc2 : α) (r2 : Bytes),
          readv sc2 kv.1 (serString kv.2 ++ r2) = some (applyf sc2 kv.1 kv.2, r2)) →
      parseFields readv fuel sc (writePairs ps ++ 0 :: rest) =
        some (ps.foldl (fun s kv => applyf s kv.1 kv.2) sc, rest) := by
  induction ps with
  | nil =>
    intro fuel sc rest hf _
    obtain ⟨f, rfl⟩ : ∃ f, fuel = f + 1 := ⟨fuel - 1, by omega⟩
    simp [writePairs, parseFields, readString, readCompact]
  | cons kv ps ih =>
    intro fuel sc rest hf hmem
    obtain ⟨f, rfl⟩ : ∃ f, fuel = f + 1 := ⟨fuel - 1, by omega⟩
    obtain ⟨hk1, hk2, hcons⟩ := hmem kv (by simp)
    have hke : kv.1.isEmpty = false := by
      cases hp : kv.1 with
      | nil => exact absurd hp hk1
      | cons a l => rfl
    have hstream : writePairs (kv :: ps) ++ 0 :: rest
        = serString kv.1 ++ (serString kv.2 ++ (writePairs ps ++ 0 :: rest)) := by
      simp [writePairs]
    rw [hstream]
    simp only [parseFields, readString_serString kv.1 _ hk2, hke, Bool.false_eq_true,
      if_false, hcons, List.foldl_cons]
    exact ih f _ rest (by simpa using Nat.lt_of_succ_lt_succ hf)
      (fun kv2 h2 => hmem kv2 (by simp [h2]))

theorem mem_optPairB {kv : Bytes × Bytes} {o : Option Bytes} {k : Bytes} :
    kv ∈ optPairB o k ↔ ∃ v, o = some v ∧ kv = (k, v) := by
  cases o <;> simp [optPairB]

theorem mem_optPairN {kv : Bytes × Bytes} {o : Option Nat} {k : Bytes} {w : Nat} :
    kv ∈ optPairN o k w ↔ ∃ n, o = some n ∧ kv = (k, toLE w n) := by
  cases o <;> simp [optPairN]

theorem foldOut_asset (sp : Bytes) (val : Option Nat) (ver com : Bool) (unk bh : List (Bytes × Bytes)) (vc vbf ac abf rp sjp ek bk a : Option Bytes) (bi : Option Nat) (o : Option Bytes) :
    (optPairB o (kPset 0x02)).foldl (fun s kv => LOutputScope.apply_kv s kv.1 kv.2)
      (LOutputScope.mk sp val ver com unk bh vc vbf ac abf rp sjp ek bk a bi) =
    LOutputScope.mk sp val ver com unk bh vc vbf ac abf rp sjp ek bk (Option.or o a) bi := by
  cases o <;> rfl

theorem foldOut_vc_l (sp : Bytes) (val : Option Nat) (ver com : Bool) (unk bh : List (Bytes × Bytes)) (vc vbf ac abf rp sjp ek bk a : Option Bytes) (bi : Option Nat) (o : Option Bytes) :
    (optPairB o (kElements 0x00)).foldl (fun s kv => LOutputScope.apply_kv s kv.1 kv.2)
      (LOutputScope.mk sp val ver com unk bh vc vbf ac abf rp sjp ek bk a bi) =
    LOutputScope.mk sp val ver com unk bh (Option.or o vc) vbf ac abf rp sjp ek bk a bi := by
  cases o <;> rfl

theorem foldOut_vc_v2 (sp : Bytes) (val : Option Nat) (ver com : Bool) (unk bh : List (Bytes × Bytes)) (vc vbf ac abf rp sjp ek bk a : Option Bytes) (bi : Option Nat) (o : Option Bytes) :
    (optPairB o (kPset 0x01)).foldl (fun s kv => LOutputScope.apply_kv s kv.1 kv.2)
      (LOutputScope.mk sp val ver com unk bh vc vbf ac abf rp sjp ek bk a bi) =
    LOutputScope.mk sp val ver com unk bh (Option.or o vc) vbf ac abf rp sjp ek bk a bi := by
  cases o <;> rfl

theorem foldOut_vbf (sp : Bytes) (val : Option Nat) (ver com : Bool) (unk bh : List (Bytes × Bytes)) (vc vbf ac abf rp sjp ek bk a : Option Bytes) (bi : Option Nat) (o : Option Bytes) :
    (optPairB o (kElements 0x01)).foldl (fun s kv => LOutputScope.apply_kv s kv.1 kv.2)
      (LOutputScope.mk sp val ver com unk bh vc vbf ac abf rp sjp ek bk a bi) =
    LOutputScope.mk sp val ver com unk bh vc (Option.or o vbf) ac abf rp sjp ek bk a bi := by
  cases o <;> rfl

theorem foldOut_ac_l (sp : Bytes) (val : Option Nat) (ver com : Bool) (unk bh : List (Bytes × Bytes)) (vc vbf ac abf rp sjp ek bk a : Option Bytes) (bi : Option Nat) (o : Option Bytes) :
    (optPairB o (kElements 0x02)).foldl (fun s kv => LOutputScope.apply_kv s kv.1 kv.2)
      (LOutputScope.mk sp val ver com unk bh vc vbf ac abf rp sjp ek bk a bi) =
    LOutputScope.mk sp val ver com unk bh vc vbf (Option.or o ac) abf rp sjp ek bk a bi := by
  cases o <;> rfl

theorem foldOut_ac_v2 (sp : Bytes) (val : Option Nat) (ver com : Bool) (unk bh : List (Bytes × Bytes)) (vc vbf ac abf rp sjp ek bk a : Option Bytes) (bi : Option Nat) (o : Option Bytes) :
    (optPairB o (kPset 0x03)).foldl (fun s kv => LOutputScope.apply_kv s kv.1 kv.2)
      (LOutputScope.mk sp val ver com unk bh vc vbf ac abf rp sjp ek bk a bi) =
    LOutputScope.mk sp val ver com unk bh vc vbf (Option.or o ac) abf rp sjp ek bk a bi := by
  cases o <;> rfl

theorem foldOut_abf (sp : Bytes) (val : Option Nat) (ver com : Bool) (unk bh : List (Bytes × Bytes)) (vc vbf ac abf rp sjp ek bk a : Option Bytes) (bi : Option Nat) (o : Option Bytes) :
    (optPairB o (kElements 0x03)).foldl (fun s kv => LOutputScope.apply_kv s kv.1 kv.2)
      (LOutputScope.mk sp val ver com unk bh vc vbf ac abf rp sjp ek bk a bi) =
    LOutputScope.mk sp val ver com unk bh vc vbf ac (Option.or o abf) rp sjp ek bk a bi := by
  cases o <;> rfl

theorem foldOut_bk_l (sp : Bytes) (val : Option Nat) (ver com : Bool) (unk bh : List (Bytes × Bytes)) (vc vbf ac abf rp sjp ek bk a : Option Bytes) (bi : Option Nat) (o : Option Bytes) :
    (optPairB o (kElements 0x06)).foldl (fun s kv => LOutputScope.apply_kv s kv.1 kv.2)
      (LOutputScope.mk sp val ver com unk bh vc vbf ac abf rp sjp ek bk a bi) =
    LOutputScope.mk sp val ver com unk bh vc vbf ac abf rp sjp ek (Option.or o bk) a bi := by
  cases o <;> rfl

theorem foldOut_bk_v2 (sp : Bytes) (val : Option Nat) (ver com : Bool) (unk bh : List (Bytes × Bytes)) (vc vbf ac abf rp sjp ek bk a : Option Bytes) (bi : Option Nat) (o : Option Bytes) :
    (optPairB o (kPset 0x06)).foldl (fun s kv => LOutputScope.apply_kv s kv.1 kv.2)
      (LOutputScope.mk sp val ver com unk bh vc vbf ac abf rp sjp ek bk a bi) =
    LOutputScope.mk sp val ver com unk bh vc vbf ac abf rp sjp ek (Option.or o bk) a bi := by
  cases o <;> rfl

theorem foldOut_ek_l (sp : Bytes) (val : Option Nat) (ver com : Bool) (unk bh : List (Bytes × Bytes)) (vc vbf ac abf rp sjp ek bk a : Option Bytes) (bi : Option Nat) (o : Option Bytes) :
    (optPairB o (kElements 0x07)).foldl (fun s kv => LOutputScope.apply_kv s kv.1 kv.2)
      (LOutputScope.mk sp val ver com unk bh vc vbf ac abf rp sjp ek bk a bi) =
    LOutputScope.mk sp val ver com unk bh vc vbf ac abf rp sjp (Option.or o ek) bk a bi := by
  cases o <;> rfl

theorem foldOut_ek_v2 (sp : Bytes) (val : Option Nat) (ver com : Bool) (unk bh : List (Bytes × Bytes)) (vc vbf ac abf rp sjp ek bk a : Option Bytes) (bi : Option Nat) (o : Option Bytes) :
    (optPairB o (kPset 0x07)).foldl (fun s kv => LOutputScope.apply_kv s kv.1 kv.2)
      (LOutputScope.mk sp val ver com unk bh vc vbf ac abf rp sjp ek bk a bi) =
    LOutputScope.mk sp val ver com unk bh vc vbf ac abf rp sjp (Option.or o ek) bk a bi := by
  cases o <;> rfl

theorem foldOut_rp_l (sp : Bytes) (val : Option Nat) (ver com : Bool) (unk bh : List (Bytes × Bytes)) (vc vbf ac abf rp sjp ek bk a : Option Bytes) (bi : Option Nat) (o : Option Bytes) :
    (optPairB o (kElements 0x04)).foldl (fun s kv => LOutputScope.apply_kv s kv.1 kv.2)
      (LOutputScope.mk sp val ver com unk bh vc vbf ac abf rp sjp ek bk a bi) =
    LOutputScope.mk sp val ver com unk bh vc vbf ac abf (if com then rp else Option.or o rp) sjp ek bk a bi := by
  cases o <;> cases com <;> rfl

theorem foldOut_rp_v2 (sp : Bytes) (val : Option Nat) (ver com : Bool) (unk bh : List (Bytes × Bytes)) (vc vbf ac abf rp sjp ek bk a : Option Bytes) (bi : Option Nat) (o : Option Bytes) :
    (optPairB o (kPset 0x04)).foldl (fun s kv => LOutputScope.apply_kv s kv.1 kv.2)
      (LOutputScope.mk sp val ver com unk bh vc vbf ac abf rp sjp ek bk a bi) =
    LOutputScope.mk sp val ver com unk bh vc vbf ac abf (if com then rp else Option.or o rp) sjp ek bk a bi := by
  cases o <;> cases com <;> rfl

theorem foldOut_sjp_l (sp : Bytes) (val : Option Nat) (ver com : Bool) (unk bh : List (Bytes × Bytes)) (vc vbf ac abf rp sjp ek bk a : Option Bytes) (bi : Option Nat) (o : Option Bytes) :
    (optPairB o (kElements 0x05)).foldl (fun s kv => LOutputScope.apply_kv s kv.1 kv.2)
      (LOutputScope.mk sp val ver com unk bh vc vbf ac abf rp sjp ek bk a bi) =
    LOutputScope.mk sp val ver com unk bh vc vbf ac abf rp (if com then sjp else Option.or o sjp) ek bk a bi := by
  cases o <;> cases com <;> rfl

theorem foldOut_sjp_v2 (sp : Bytes) (val : Option Nat) (ver com : Bool) (unk bh : List (Bytes × Bytes)) (vc vbf ac abf rp sjp ek bk a : Option Bytes) (bi : Option Nat) (o : Option Bytes) :
    (optPairB o (kPset 0x05)).foldl (fun s kv => LOutputScope.apply_kv s kv.1 kv.2)
      (LOutputScope.mk sp val ver com unk bh vc vbf ac abf rp sjp ek bk a bi) =
    LOutputScope.mk sp val ver com unk bh vc vbf ac abf rp (if com then sjp else Option.or o sjp) ek bk a bi := by
  cases o <;> cases com <;> rfl

theorem foldOut_bi (sp : Bytes) (val : Option Nat) (ver com : Bool) (unk bh : List (Bytes × Bytes)) (vc vbf ac abf rp sjp ek bk a : Option Bytes) (bi : Option Nat) (o : Option Nat) (h : ∀ n ∈ o, n < 256 ^ 4) :
    (optPairN o (kPset 0x08) 4).foldl (fun s kv => LOutputScope.apply_kv s kv.1 kv.2)
      (LOutputScope.mk sp val ver com unk bh vc vbf ac abf rp sjp ek bk a bi) =
    LOutputScope.mk sp val ver com unk bh vc vbf ac abf rp sjp ek bk a (Option.or o bi) := by
  cases o with
  | none => rfl
  | some n =>
    show LOutputScope.mk sp val ver com unk bh vc vbf ac abf rp sjp ek bk a (some (fromLE (toLE 4 n))) = _
    rw [fromLE_toLE 4 n (h n rfl)]
    rfl

theorem foldIn_value (tx : Bytes) (vo : Nat) (ut : LTransactionOutput) (ver com : Bool) (unk bh : List (Bytes × Bytes)) (val : Option Nat) (vbf a abf rp : Option Bytes) (o : Option Nat) (h : ∀ n ∈ o, n < 256 ^ 8) :
    (optPairN o (kElements 0x00) 8).foldl (fun s kv => LInputScope.apply_kv s kv.1 kv.2)
      (LInputScope.mk tx vo ut ver com unk bh val vbf a abf rp) =
    LInputScope.mk tx vo ut ver com unk bh (Option.or o val) vbf a abf rp := by
  cases o with
  | none => rfl
  | some n =>
    show LInputScope.mk tx vo ut ver com unk bh (some (fromLE (toLE 8 n))) vbf a abf rp = _
    rw [fromLE_toLE 8 n (h n rfl)]
    rfl

theorem foldIn_vbf (tx : Bytes) (vo : Nat) (ut : LTransactionOutput) (ver com : Bool) (unk bh : List (Bytes × Bytes)) (val : Option Nat) (vbf a abf rp : Option Bytes) (o : Option Bytes) :
    (optPairB o (kElements 0x01)).foldl (fun s kv => LInputScope.apply_kv s kv.1 kv.2)
      (LInputScope.mk tx vo ut ver com unk bh val vbf a abf rp) =
    LInputScope.mk tx vo ut ver com unk bh val (Option.or o vbf) a abf rp := by
  cases o <;> rfl

theorem foldIn_asset (tx : Bytes) (vo : Nat) (ut : LTransactionOutput) (ver com : Bool) (unk bh : List (Bytes × Bytes)) (val : Option Nat) (vbf a abf rp : Option Bytes) (o : Option Bytes) :
    (optPairB o (kElements 0x02)).foldl (fun s kv => LInputScope.apply_kv s kv.1 kv.2)
      (LInputScope.mk tx vo ut ver com unk bh val vbf a abf rp) =
    LInputScope.mk tx vo ut ver com unk bh val vbf (Option.or o a) abf rp := by
  cases o <;> rfl

theorem foldIn_abf (tx : Bytes) (vo : Nat) (ut : LTransactionOutput) (ver com : Bool) (unk bh : List (Bytes × Bytes)) (val : Option Nat) (vbf a abf rp : Option Bytes) (o : Option Bytes) :
    (optPairB o (kElements 0x03)).foldl (fun s kv => LInputScope.apply_kv s kv.1 kv.2)
      (LInputScope.mk tx vo ut ver com unk bh val vbf a abf rp) =
    LInputScope.mk tx vo ut ver com unk bh val vbf a (Option.or o abf) rp := by
  cases o <;> rfl

theorem foldIn_rp (tx : Bytes) (vo : Nat) (ut : LTransactionOutput) (ver com : Bool) (unk bh : List (Bytes × Bytes)) (val : Option Nat) (vbf a abf rp : Option Bytes) (o : Option Bytes) :
    (optPairB o (kPset 0x0e)).foldl (fun s kv => LInputScope.apply_kv s kv.1 kv.2)
      (LInputScope.mk tx vo ut ver com unk bh val vbf a abf rp) =
    LInputScope.mk tx vo ut ver com unk bh val vbf a abf (if com then rp else Option.or o rp) := by
  cases o <;> cases com <;> rfl

/-- C3 (amended): serializing an input or output record and parsing the
bytes back yields a record equal in all set liquid fields, for any
version and either compress mode, except that (a) an output's plaintext
asset is serialized only under version 2 and is absent after a
legacy-version round trip, and (b) in compress mode the range proof and
surjection proof are absent after the parse (they are present after a
non-compressed parse of the same bytes). The base-layer fields
(script/value/unknown map), handled by the external base classes, are
assumed blank. -/
theorem c3_serialize_parse_roundtrip :
    (∀ (r : LOutputScope) (version : Option Nat) (c : Bool),
      r.script_pubkey = [] → r.value = none → r.verified = false →
      r.unknown = [] → r.base_handled = [] → outWf r →
      parseOutputScope c (r.write_to version false) =
        some ({ r with compress := c,
                       asset := if version = some 2 then r.asset else none,
                       range_proof := if c then none else r.range_proof,
                       surjection_proof := if c then none else r.surjection_proof }, [])) ∧
    (∀ (ri : LInputScope) (c : Bool),
      ri.txid = [] → ri.vout = 0 → ri.utxo = blankUtxo → ri.verified = false →
      ri.unknown = [] → ri.base_handled = [] → inWf ri →
      parseInputScope c (ri.write_to false) =
        some ({ ri with compress := c,
                        range_proof := if c then none else ri.range_proof }, [])) := by
  constructor
  · intro r version c h1 h2 h3 h4 h5 hwf
    obtain ⟨W1, W2, W3, W4, W5, W6, W7, W8, W9, W10⟩ := hwf
    have hw : LOutputScope.write_to r version false =
        writePairs (outPairs r version) ++ 0 :: [] := rfl
    have hfuel : (outPairs r version).length <
        (writePairs (outPairs r version) ++ 0 :: []).length + 1 := by
      have := length_le_writePairs (outPairs r version)
      simp only [List.length_append, List.length_cons, List.length_nil]
      omega
    have hmem : ∀ kv ∈ outPairs r version, kv.1 ≠ [] ∧ kv.1.length < 2 ^ 64 ∧
        ∀ (sc2 : LOutputScope) (r2 : Bytes),
          LOutputScope.read_value sc2 kv.1 (serString kv.2 ++ r2) =
            some (LOutputScope.apply_kv sc2 kv.1 kv.2, r2) := by
      intro kv hkv
      by_cases hv2 : version = some 2
      · simp only [outPairs, hv2, if_true, List.mem_append, mem_optPairB,
          mem_optPairN] at hkv
        rcases hkv with ((((((((⟨v, ho, rfl⟩ | ⟨v, ho, rfl⟩) | ⟨v, ho, rfl⟩) |
          ⟨v, ho, rfl⟩) | ⟨v, ho, rfl⟩) | ⟨v, ho, rfl⟩) | ⟨v, ho, rfl⟩) |
          ⟨v, ho, rfl⟩) | ⟨v, ho, rfl⟩) | ⟨n, ho, rfl⟩ <;>
        refine ⟨by simp [kElements, kPset, elementsMarker, psetMarker],
          by norm_num [kElements, kPset, elementsMarker, psetMarker], fun sc2 r2 => ?_⟩ <;>
        first
          | exact out_read_value_ser sc2 _ v r2 (by first
              | exact W1 v (by rw [ho]; rfl)
              | exact W2 v (by rw [ho]; rfl)
              | exact W3 v (by rw [ho]; rfl)
              | exact W4 v (by rw [ho]; rfl)
              | exact W5 v (by rw [ho]; rfl)
              | exact W6 v (by rw [ho]; rfl)
              | exact W7 v (by rw [ho]; rfl)
              | exact W8 v (by rw [ho]; rfl)
              | exact W9 v (by rw [ho]; rfl))
          | exact out_read_value_ser sc2 _ _ r2 (by norm_num [toLE_length])
      · simp only [outPairs, hv2, if_false, List.mem_append, mem_optPairB,
          mem_optPairN, List.not_mem_nil, false_or] at hkv
        rcases hkv with (((((((⟨v, ho, rfl⟩ | ⟨v, ho, rfl⟩) | ⟨v, ho, rfl⟩) |
          ⟨v, ho, rfl⟩) | ⟨v, ho, rfl⟩) | ⟨v, ho, rfl⟩) | ⟨v, ho, rfl⟩) |
          ⟨v, ho, rfl⟩) | ⟨n, ho, rfl⟩ <;>
        refine ⟨by simp [kElements, kPset, elementsMarker, psetMarker],
          by norm_num [kElements, kPset, elementsMarker, psetMarker], fun sc2 r2 => ?_⟩ <;>
        first
          | exact out_read_value_ser sc2 _ v r2 (by first
              | exact W1 v (by rw [ho]; rfl)
              | exact W2 v (by rw [ho]; rfl)
              | exact W3 v (by rw [ho]; rfl)
              | exact W4 v (by rw [ho]; rfl)
              | exact W5 v (by rw [ho]; rfl)
              | exact W6 v (by rw [ho]; rfl)
              | exact W7 v (by rw [ho]; rfl)
              | exact W8 v (by rw [ho]; rfl)
              | exact W9 v (by rw [ho]; rfl))
          | exact out_read_value_ser sc2 _ _ r2 (by norm_num [toLE_length])
    unfold parseOutputScope
    rw [hw, parseFields_writePairs LOutputScope.read_value LOutputScope.apply_kv
      (outPairs r version) _ (blankOutput c) [] hfuel hmem]
    by_cases hv2 : version = some 2
    · simp only [outPairs, hv2, if_true, blankOutput, List.foldl_append]
      rw [foldOut_asset, foldOut_vc_v2, foldOut_vbf, foldOut_ac_v2, foldOut_abf,
        foldOut_bk_v2, foldOut_ek_v2, foldOut_rp_v2, foldOut_sjp_v2,
        foldOut_bi _ _ _ _ _ _ _ _ _ _ _ _ _ _ _ _ _ W10]
      simp [h1, h2, h3, h4, h5, Option.or_none]
    · simp only [outPairs, hv2, if_true, if_false, blankOutput, List.foldl_append,
        List.foldl_nil]
      rw [foldOut_vc_l, foldOut_vbf, foldOut_ac_l, foldOut_abf,
        foldOut_bk_l, foldOut_ek_l, foldOut_rp_l, foldOut_sjp_l,
        foldOut_bi _ _ _ _ _ _ _ _ _ _ _ _ _ _ _ _ _ W10]
      simp [h1, h2, h3, h4, h5, hv2, Option.or_none]
  · intro ri c h1 h2 h3 h4 h5 h6 hwf
    obtain ⟨W1, W2, W3, W4, W5⟩ := hwf
    have hw : LInputScope.write_to ri false = writePairs (inPairs ri) ++ 0 :: [] := rfl
    have hfuel : (inPairs ri).length < (writePairs (inPairs ri) ++ 0 :: []).length + 1 := by
      have := length_le_writePairs (inPairs ri)
      simp only [List.length_append, List.length_cons, List.length_nil]
      omega
    have hmem : ∀ kv ∈ inPairs ri, kv.1 ≠ [] ∧ kv.1.length < 2 ^ 64 ∧
        ∀ (sc2 : LInputScope) (r2 : Bytes),
          LInputScope.read_value sc2 kv.1 (serString kv.2 ++ r2) =
            some (LInputScope.apply_kv sc2 kv.1 kv.2, r2) := by
      intro kv hkv
      simp only [inPairs, List.mem_append, mem_optPairB, mem_optPairN] at hkv
      rcases hkv with (((⟨n, ho, rfl⟩ | ⟨v, ho, rfl⟩) | ⟨v, ho, rfl⟩) |
        ⟨v, ho, rfl⟩) | ⟨v, ho, rfl⟩ <;>
      refine ⟨by simp [kElements, kPset, elementsMarker, psetMarker],
        by norm_num [kElements, kPset, elementsMarker, psetMarker], fun sc2 r2 => ?_⟩ <;>
      first
        | exact in_read_value_ser sc2 _ v r2 (by first
            | exact W2 v (by rw [ho]; rfl)
            | exact W3 v (by rw [ho]; rfl)
            | exact W4 v (by rw [ho]; rfl)
            | exact W5 v (by rw [ho]; rfl))
        | exact in_read_value_ser sc2 _ _ r2 (by norm_num [toLE_length])
    unfold parseInputScope
    rw [hw, parseFields_writePairs LInputScope.read_value LInputScope.apply_kv
      (inPairs ri) _ (blankInput c) [] hfuel hmem]
    simp only [inPairs, blankInput, List.foldl_append]
    rw [foldIn_value _ _ _ _ _ _ _ _ _ _ _ _ _ W1, foldIn_vbf, foldIn_asset, foldIn_abf,
      foldIn_rp]
    simp [h1, h2, h3, h4, h5, h6, Option.or_none]

/-- C3 counterexample: the claim as stated fails for the legacy namespace —
an output record with a set plaintext asset serializes (version legacy,
i.e. not 2) to just the separator, and parsing those bytes yields a record
whose asset field is absent, so the round trip is not equal in all set
fields. -/
theorem c3_counterexample_legacy_drops_asset :
    ({ blankOutput false with asset := some [1] } : LOutputScope).asset = some [1] ∧
    LOutputScope.write_to { blankOutput false with asset := some [1] } none false = [0] ∧
    parseOutputScope false
        (LOutputScope.write_to { blankOutput false with asset := some [1] } none false) =
      some (blankOutput false, []) ∧
    (blankOutput false).asset = none := by
  exact ⟨rfl, rfl, rfl, rfl⟩

/-- C3 witness: a concrete v2 output record with a value commitment, a
range proof, a plaintext asset and a blinder index round-trips through a
compressed parse, dropping exactly the range proof. -/
theorem c3_serialize_parse_roundtrip_witness :
    parseOutputScope true
        (LOutputScope.write_to
          { blankOutput false with
            value_commitment := some [9, 9],
            range_proof := some [7], asset := some [3], blinder_index := some 258 }
          (some 2) false) =
      some ({ blankOutput true with
              value_commitment := some [9, 9],
              asset := some [3], blinder_index := some 258 }, []) := by
  have h := c3_serialize_parse_roundtrip.1
    { blankOutput false with
      value_commitment := some [9, 9], range_proof := some [7],
      asset := some [3], blinder_index := some 258 }
    (some 2) true rfl rfl rfl rfl rfl
    (by unfold outWf bLen; decide)
  exact h

/-- C2: `verify()` resets the verified flag first; it raises the
"Invalid commitments" error exactly when an applicable check fails — for
the asset: plaintext asset and asset commitment both present (truthily)
but the blinding factor absent or the re-derived generator different from
the stored commitment; for the value: plaintext value and value
commitment both present but no generator context established by the
asset check, or the re-derived Pedersen commitment different from the
stored one — and otherwise sets the verified flag and returns success;
absence of commitments or plaintext is not an error. -/
theorem c2_verify_characterization (E : Engine) (sc : LOutputScope) :
    LOutputScope.verify E sc =
      if ((truthyB sc.asset && truthyB sc.asset_commitment) = true ∧
            (truthyB sc.asset_blinding_factor = false ∨
              orD sc.asset_commitment ≠ E.generator_serialize
                (E.generator_generate_blinded (orD sc.asset) (orD sc.asset_blinding_factor)))) ∨
          ((truthyN sc.value && truthyB sc.value_commitment) = true ∧
            (¬ (truthyB sc.asset && truthyB sc.asset_commitment) = true ∨
              (truthyB sc.asset_blinding_factor = true ∧
                orD sc.asset_commitment = E.generator_serialize
                  (E.generator_generate_blinded (orD sc.asset) (orD sc.asset_blinding_factor)) ∧
                orD sc.value_commitment ≠ E.pedersen_commitment_serialize
                  (E.pedersen_commit (orD sc.value_blinding_factor) (sc.value.getD 0)
                    (E.generator_generate_blinded (orD sc.asset)
                      (orD sc.asset_blinding_factor))))))
      then ({ sc with verified := false }, some PErr.invalidCommitments)
      else ({ sc with verified := true }, none) := by
  by_cases hA : (truthyB sc.asset && truthyB sc.asset_commitment) = true <;>
  by_cases hAB : truthyB sc.asset_blinding_factor = true <;>
  by_cases hGM : orD sc.asset_commitment = E.generator_serialize
      (E.generator_generate_blinded (orD sc.asset) (orD sc.asset_blinding_factor)) <;>
  by_cases hV : (truthyN sc.value && truthyB sc.value_commitment) = true <;>
  by_cases hCM : orD sc.value_commitment = E.pedersen_commitment_serialize
      (E.pedersen_commit (orD sc.value_blinding_factor) (sc.value.getD 0)
        (E.generator_generate_blinded (orD sc.asset) (orD sc.asset_blinding_factor))) <;>
  simp [LOutputScope.verify, hA, hAB, hGM, hV, hCM]

/-- C9: a plaintext value of `0` alongside a stored value commitment (or
an empty plaintext asset alongside a stored asset commitment) is treated
as absent by `verify()`'s truthiness presence tests: no commitment
comparison happens (the result is the same for every engine and any
commitment bytes) and the record is marked verified successfully. -/
theorem c9_zero_value_skips_commitment_check :
    (∀ (E : Engine) (c : Bool) (vcb : Bytes),
      LOutputScope.verify E
          { blankOutput c with
            value := some 0, value_commitment := some vcb } =
        ({ blankOutput c with
           value := some 0, value_commitment := some vcb,
           verified := true }, none)) ∧
    (∀ (E : Engine) (c : Bool) (acb : Bytes),
      LOutputScope.verify E
          { blankOutput c with
            asset := some [], asset_commitment := some acb } =
        ({ blankOutput c with
           asset := some [], asset_commitment := some acb,
           verified := true }, none)) := by
  exact ⟨fun E c vcb => rfl, fun E c acb => rfl⟩

/-- C1: `unblind(blinding_private_key)` returns immediately, unchanged,
when no range proof is present; otherwise it recovers the plaintext and
blinding factors by range-proof rewind under the slip77 per-script key,
re-derives the asset generator and the Pedersen commitment, and compares
them with the referenced UTXO's stored commitments: on any mismatch it
fails (a failing assertion) with the record unchanged — the recovered
plaintext is never stored — and only when both comparisons succeed are
the four recovered fields stored on the record. -/
theorem c1_unblind_spec (E : Engine) (sc : LInputScope) (key : Bytes) :
    (sc.range_proof = none → LInputScope.unblind E sc key = .ok sc) ∧
    (∀ rp, sc.range_proof = some rp →
      ∀ r gen,
        r = E.unblind sc.utxo.ecdh_pubkey (E.blinding_key key sc.utxo.script_pubkey) rp
              sc.utxo.value sc.utxo.asset sc.utxo.script_pubkey →
        gen = E.generator_generate_blinded r.asset r.abf →
        ((gen ≠ E.generator_parse sc.utxo.asset ∨
            E.pedersen_commit r.vbf r.value gen ≠ E.pedersen_commitment_parse sc.utxo.value →
          LInputScope.unblind E sc key = .error .assertionFailed) ∧
         (gen = E.generator_parse sc.utxo.asset →
          E.pedersen_commit r.vbf r.value gen = E.pedersen_commitment_parse sc.utxo.value →
          LInputScope.unblind E sc key =
            .ok { sc with
                  asset := some r.asset, value := some r.value,
                  asset_blinding_factor := some r.abf,
                  value_blinding_factor := some r.vbf }))) := by
  constructor
  · intro h
    simp [LInputScope.unblind, h]
  · intro rp hrp r gen hr hgen
    subst hr hgen
    constructor
    · intro hmis
      rcases hmis with h | h
      · simp [LInputScope.unblind, hrp, h]
      · by_cases h1 : E.generator_generate_blinded
            (E.unblind sc.utxo.ecdh_pubkey (E.blinding_key key sc.utxo.script_pubkey) rp
              sc.utxo.value sc.utxo.asset sc.utxo.script_pubkey).asset
            (E.unblind sc.utxo.ecdh_pubkey (E.blinding_key key sc.utxo.script_pubkey) rp
              sc.utxo.value sc.utxo.asset sc.utxo.script_pubkey).abf =
            E.generator_parse sc.utxo.asset
        · rw [h1] at h
          simp [LInputScope.unblind, hrp, h1, h]
        · simp [LInputScope.unblind, hrp, h1]
    · intro hg hc
      rw [hg] at hc
      simp [LInputScope.unblind, hrp, hg, hc]

/-- C1 witness: with the concrete engine, a record carrying a range proof
whose rewind result matches the crafted UTXO commitments is unblinded,
storing the four recovered fields; and the same record with no range
proof is returned unchanged. -/
theorem c1_unblind_spec_witness :
    LInputScope.unblind dummyEngine
        { blankInput false with
          range_proof := some [1],
          utxo := { asset := 10 :: (List.replicate 32 7 ++ List.replicate 32 2),
                    value := .conf (5 :: (List.replicate 32 1 ++
                      (10 :: (List.replicate 32 7 ++ List.replicate 32 2)))),
                    script_pubkey := [], ecdh_pubkey := none } } [1, 2] =
      .ok { blankInput false with
            range_proof := some [1],
            utxo := { asset := 10 :: (List.replicate 32 7 ++ List.replicate 32 2),
                      value := .conf (5 :: (List.replicate 32 1 ++
                        (10 :: (List.replicate 32 7 ++ List.replicate 32 2)))),
                      script_pubkey := [], ecdh_pubkey := none },
            asset := some (List.replicate 32 7), value := some 5,
            asset_blinding_factor := some (List.replicate 32 2),
            value_blinding_factor := some (List.replicate 32 1) } ∧
    LInputScope.unblind dummyEngine (blankInput false) [1, 2] = .ok (blankInput false) := by
  constructor
  · exact ((c1_unblind_spec dummyEngine
      { blankInput false with
        range_proof := some [1],
        utxo := { asset := 10 :: (List.replicate 32 7 ++ List.replicate 32 2),
                  value := .conf (5 :: (List.replicate 32 1 ++
                    (10 :: (List.replicate 32 7 ++ List.replicate 32 2)))),
                  script_pubkey := [], ecdh_pubkey := none } } [1, 2]).2
      [1] rfl _ _ rfl rfl).2 (by decide) (by decide)
  · exact (c1_unblind_spec dummyEngine (blankInput false) [1, 2]).1 rfl

/-- C4: the container's `is_verified` is true exactly when every input's
and every output's individually-verified flag is true; `verify()` runs
the base verify, then `verify()` on every output record, and returns the
conjunction for the resulting container — so a single unverified input or
output record makes the returned result false. -/
theorem c4_container_verify_conjunction (E : Engine)
    (sv : PSET → PSET × Option PErr) (p : PSET) :
    (PSET.is_verified p = true ↔
      (∀ sc ∈ p.inputs, sc.verified = true) ∧ (∀ sc ∈ p.outputs, sc.verified = true)) ∧
    (∀ p2 b, PSET.verify E sv p = (p2, .ok b) →
      b = PSET.is_verified p2 ∧
      p2.outputs = (verifyOuts E (sv p).1.outputs).1 ∧
      p2.inputs = (sv p).1.inputs ∧
      (((∃ sc ∈ p2.inputs, sc.verified = false) ∨
        (∃ sc ∈ p2.outputs, sc.verified = false)) → b = false)) := by
  have hiv : ∀ q : PSET, PSET.is_verified q = true ↔
      (∀ sc ∈ q.inputs, sc.verified = true) ∧ (∀ sc ∈ q.outputs, sc.verified = true) := by
    intro q
    simp [PSET.is_verified, List.all_append]
  refine ⟨hiv p, ?_⟩
  intro p2 b hv
  unfold PSET.verify at hv
  rcases hsv : sv p with ⟨p1, e1⟩
  rw [hsv] at hv
  cases e1 with
  | some e =>
    replace hv : ((p1, Except.error e) : PSET × Except PErr Bool) = (p2, Except.ok b) := hv
    injection hv with h1 h2
    cases h2
  | none =>
    replace hv : (match (verifyOuts E p1.outputs).2 with
        | some e => ({ p1 with outputs := (verifyOuts E p1.outputs).1 }, Except.error e)
        | none => ({ p1 with outputs := (verifyOuts E p1.outputs).1 },
            Except.ok (PSET.is_verified { p1 with outputs := (verifyOuts E p1.outputs).1 })))
        = (p2, Except.ok b) := hv
    rcases hvo : verifyOuts E p1.outputs with ⟨outs, e2⟩
    rw [hvo] at hv
    cases e2 with
    | some e =>
      replace hv : (({ p1 with outputs := outs }, Except.error e) :
          PSET × Except PErr Bool) = (p2, Except.ok b) := hv
      injection hv with h1 h2
      cases h2
    | none =>
      replace hv : (({ p1 with outputs := outs },
          Except.ok (PSET.is_verified { p1 with outputs := outs })) :
          PSET × Except PErr Bool) = (p2, Except.ok b) := hv
      injection hv with h1 h2
      injection h2 with h3
      obtain rfl := h1
      obtain rfl := h3.symm
      refine ⟨rfl, ?_, ?_, ?_⟩
      · simp [hvo]
      · simp [hsv]
      · intro hex
        cases hbv : PSET.is_verified { p1 with outputs := outs } with
        | false => rfl
        | true =>
          have hall := (hiv _).mp hbv
          rcases hex with ⟨sc, hm, hf⟩ | ⟨sc, hm, hf⟩
          · rw [hall.1 sc hm] at hf
            cases hf
          · rw [hall.2 sc hm] at hf
            cases hf

/-- C4 witness: a container whose single output fails to stay verified
(blank record, verified by `verify()`) and verified input yields a true
conjunction, evaluated concretely. -/
theorem c4_container_verify_conjunction_witness :
    PSET.verify dummyEngine (fun q => (q, none))
        { inputs := [{ blankInput false with verified := true }],
          outputs := [blankOutput false], tx := { vout := [] } } =
      ({ inputs := [{ blankInput false with verified := true }],
         outputs := [{ blankOutput false with verified := true }], tx := { vout := [] } },
        .ok true) ∧
    (true = PSET.is_verified
      { inputs := [{ blankInput false with verified := true }],
        outputs := [{ blankOutput false with verified := true }], tx := { vout := [] } }) := by
  constructor
  · rfl
  · exact ((c4_container_verify_conjunction dummyEngine (fun q => (q, none))
      { inputs := [{ blankInput false with verified := true }],
        outputs := [blankOutput false], tx := { vout := [] } }).2
      _ true (by rfl)).1

/-- C5: when no output carries both a blinding pubkey and a known value,
`blind(seed)` raises the "Nothing to blind" error and the container is
returned unmodified. -/
theorem c5_nothing_to_blind (E : Engine) (p : PSET) (seed : Bytes)
    (hseed : seed.length = 32)
    (h : ∀ out ∈ p.outputs, out.blinding_pubkey = none ∨ out.value = none) :
    PSET.blind E p seed = (p, some PErr.nothingToBlind) := by
  have hq : ∀ out ∈ p.outputs, blindQual out = false := by
    intro out hm
    rcases h out hm with h1 | h1 <;> simp [blindQual, h1]
  have hts : ∃ ts, PSET.txseed E p seed = .ok ts := by
    simp [PSET.txseed, hseed]
  obtain ⟨ts, hts⟩ := hts
  have hpass : ∀ ts2, blindPass1 E ts2 p.outputs = p.outputs := by
    intro ts2
    unfold blindPass1
    have : p.outputs.enum.map (fun iout =>
        if blindQual iout.2 then
          { iout.2 with
            asset_blinding_factor := some (E.tagged_hash tagAbf (ts2 ++ toLE 4 iout.1)),
            value_blinding_factor := some (E.tagged_hash tagVbf (ts2 ++ toLE 4 iout.1)) }
        else iout.2) = p.outputs.enum.map Prod.snd := by
      rw [List.map_eq_map_iff]
      intro x hx
      simp [hq x.2 (List.snd_mem_of_mem_enum hx)]
    rw [this, List.enum_map_snd]
  have hfilter : p.outputs.filter blindQual = [] := by
    rw [List.filter_eq_nil_iff]
    intro a ha
    simp [hq a ha]
  unfold PSET.blind
  rw [hts]
  simp only [hpass, hfilter, List.isEmpty_nil, if_true]

/-- C5 witness: a concrete one-input, one-output container where the
output has a value but no blinding pubkey is left unchanged by
`blind(seed)`, which reports "Nothing to blind". -/
theorem c5_nothing_to_blind_witness :
    PSET.blind dummyEngine
        { inputs := [blankInput false],
          outputs := [{ blankOutput false with value := some 7 }],
          tx := { vout := [] } } (List.replicate 32 0) =
      ({ inputs := [blankInput false],
         outputs := [{ blankOutput false with value := some 7 }],
         tx := { vout := [] } }, some PErr.nothingToBlind) := by
  exact c5_nothing_to_blind dummyEngine _ _ (by decide)
    (by intro out hm; left; simp at hm; rw [hm]; rfl)

/-- C6 counterexample: the claim fails for input records — parsing the
legacy key `fc 08 "elements" 02` into a fresh input record stores the
payload as the record's plaintext asset (and subtype `00` decodes the
payload as a little-endian integer into the plaintext value); input
records carry no commitment fields at all. -/
theorem c6_counterexample_input_stores_plaintext :
    LInputScope.read_value (blankInput false) (kElements 0x02) (serString [7]) =
      some ({ blankInput false with asset := some [7] }, []) ∧
    ({ blankInput false with asset := some [7] } : LInputScope).asset = some [7] ∧
    (blankInput false).asset = none ∧
    LInputScope.read_value (blankInput false) (kElements 0x00)
        (serString [0, 1, 0, 0, 0, 0, 0, 0]) =
      some ({ blankInput false with value := some 256 }, []) := by
  exact ⟨rfl, rfl, rfl, rfl⟩

/-- C6 (amended): for output records the legacy subtypes `00` and `02`
store the payload verbatim as the value commitment and the asset
commitment, as the namespace table says; for input records the same
subtypes instead store the plaintext value (decoded little-endian) and
the plaintext asset. -/
theorem c6_legacy_subtype_routing (so : LOutputScope) (si : LInputScope) (v rest : Bytes)
    (hv : v.length < 2 ^ 64) :
    LOutputScope.read_value so (kElements 0x00) (serString v ++ rest) =
      some ({ so with value_commitment := some v }, rest) ∧
    LOutputScope.read_value so (kElements 0x02) (serString v ++ rest) =
      some ({ so with asset_commitment := some v }, rest) ∧
    LInputScope.read_value si (kElements 0x00) (serString v ++ rest) =
      some ({ si with value := some (fromLE v) }, rest) ∧
    LInputScope.read_value si (kElements 0x02) (serString v ++ rest) =
      some ({ si with asset := some v }, rest) := by
  refine ⟨(out_read_value_ser so (kElements 0x00) v rest hv).trans rfl,
    (out_read_value_ser so (kElements 0x02) v rest hv).trans rfl,
    (in_read_value_ser si (kElements 0x00) v rest hv).trans rfl,
    (in_read_value_ser si (kElements 0x02) v rest hv).trans rfl⟩

/-- C6 witness: concrete parses of the two legacy subtypes into fresh
output and input records. -/
theorem c6_legacy_subtype_routing_witness :
    LOutputScope.read_value (blankOutput false) (kElements 0x00) (serString [9, 9]) =
      some ({ blankOutput false with value_commitment := some [9, 9] }, []) ∧
    LOutputScope.read_value (blankOutput false) (kElements 0x02) (serString [8]) =
      some ({ blankOutput false with asset_commitment := some [8] }, []) := by
  exact ⟨(c6_legacy_subtype_routing (blankOutput false) (blankInput false) [9, 9] []
      (by decide)).1,
    (c6_legacy_subtype_routing (blankOutput false) (blankInput false) [8] []
      (by decide)).2.1⟩

/-- C7: `fee()` returns exactly the sum of the plaintext values of the
transaction outputs with empty scripts (fee outputs are plaintext by
protocol convention), and `some 0` when no output has an empty script. -/
theorem c7_fee_sums_empty_script_outputs (p : PSET)
    (h : ∀ out ∈ p.tx.vout, out.script_pubkey = [] → ∃ n, out.value = LValue.plain n) :
    PSET.fee p = some (((p.tx.vout.filter fun o => o.script_pubkey = []).map
        fun o => plainVal o.value).sum) ∧
    ((p.tx.vout.filter fun o => o.script_pubkey = []) = [] → PSET.fee p = some 0) := by
  have main : ∀ (l : List LTransactionOutput) (acc : Nat),
      (∀ out ∈ l, out.script_pubkey = [] → ∃ n, out.value = LValue.plain n) →
      l.foldl
        (fun acc out =>
          match acc with
          | none => none
          | some f =>
            if out.script_pubkey = [] then
              match out.value with
              | .plain n => some (f + n)
              | .conf _ => none
            else some f)
        (some acc) =
      some (acc + ((l.filter fun o => o.script_pubkey = []).map
        fun o => plainVal o.value).sum) := by
    intro l
    induction l with
    | nil => intro acc _; simp
    | cons out l ih =>
      intro acc hl
      by_cases hs : out.script_pubkey = []
      · obtain ⟨n, hn⟩ := hl out (by simp) hs
        simp only [List.foldl_cons, hs, if_true, hn]
        rw [ih (acc + n) (fun o hm => hl o (by simp [hm]))]
        simp [List.filter_cons, hs, hn, plainVal]
        omega
      · simp only [List.foldl_cons, hs, if_false]
        rw [ih acc (fun o hm => hl o (by simp [hm]))]
        simp [List.filter_cons, hs]
  constructor
  · have := main p.tx.vout 0 h
    simpa [PSET.fee] using this
  · intro hempty
    have := main p.tx.vout 0 h
    rw [hempty] at this
    simpa [PSET.fee] using this

/-- C7 witness: a transaction with one empty-script output of value 3,
one scripted output, and another empty-script output of value 4 has fee
7; a transaction with no empty-script output has fee 0. -/
theorem c7_fee_sums_empty_script_outputs_witness :
    PSET.fee { inputs := [], outputs := [], tx := { vout :=
        [{ asset := [], value := .plain 3, script_pubkey := [], ecdh_pubkey := none },
         { asset := [], value := .plain 9, script_pubkey := [1], ecdh_pubkey := none },
         { asset := [], value := .plain 4, script_pubkey := [], ecdh_pubkey := none }] } } =
      some 7 ∧
    PSET.fee { inputs := [], outputs := [], tx := { vout :=
        [{ asset := [], value := .conf [2], script_pubkey := [1], ecdh_pubkey := none }] } } =
      some 0 := by
  constructor
  · exact ((c7_fee_sums_empty_script_outputs _
      (by intro out hm; fin_cases hm <;> simp <;> exact ⟨_, rfl⟩)).1).trans (by decide)
  · exact (c7_fee_sums_empty_script_outputs _
      (by intro out hm; fin_cases hm <;> simp)).2 (by decide)

/-- C8: `write_to` serializes the present liquid fields in exactly the
source order — plaintext asset (v2 only), value commitment, value
blinding factor, asset commitment, asset blinding factor, blinding
pubkey, ECDH pubkey, range proof, surjection proof, blinder index — with
both proofs written after the pubkey fields, in both namespaces. -/
theorem c8_output_write_order (vc vbf ac abf bk ek rp sjp a : Bytes) (bi : Nat) (c : Bool) :
    LOutputScope.write_to
        { blankOutput c with
          value_commitment := some vc, value_blinding_factor := some vbf,
          asset_commitment := some ac, asset_blinding_factor := some abf,
          blinding_pubkey := some bk, ecdh_pubkey := some ek,
          range_proof := some rp, surjection_proof := some sjp,
          asset := some a, blinder_index := some bi } (some 2) false =
      serString (kPset 0x02) ++ serString a ++
      serString (kPset 0x01) ++ serString vc ++
      serString (kElements 0x01) ++ serString vbf ++
      serString (kPset 0x03) ++ serString ac ++
      serString (kElements 0x03) ++ serString abf ++
      serString (kPset 0x06) ++ serString bk ++
      serString (kPset 0x07) ++ serString ek ++
      serString (kPset 0x04) ++ serString rp ++
      serString (kPset 0x05) ++ serString sjp ++
      serString (kPset 0x08) ++ serString (toLE 4 bi) ++ [0x00] ∧
    LOutputScope.write_to
        { blankOutput c with
          value_commitment := some vc, value_blinding_factor := some vbf,
          asset_commitment := some ac, asset_blinding_factor := some abf,
          blinding_pubkey := some bk, ecdh_pubkey := some ek,
          range_proof := some rp, surjection_proof := some sjp,
          asset := some a, blinder_index := some bi } none false =
      serString (kElements 0x00) ++ serString vc ++
      serString (kElements 0x01) ++ serString vbf ++
      serString (kElements 0x02) ++ serString ac ++
      serString (kElements 0x03) ++ serString abf ++
      serString (kElements 0x06) ++ serString bk ++
      serString (kElements 0x07) ++ serString ek ++
      serString (kElements 0x04) ++ serString rp ++
      serString (kElements 0x05) ++ serString sjp ++
      serString (kPset 0x08) ++ serString (toLE 4 bi) ++ [0x00] := by
  constructor <;>
  simp [LOutputScope.write_to, outPairs, writePairs, optPairB, optPairN, blankOutput,
    List.append_assoc]

theorem startsWithSeq_append_self (p t : Bytes) : startsWithSeq p (p ++ t) = true := by
  induction p with
  | nil => rfl
  | cons b bs ih => simp [startsWithSeq, ih]

/-- C10: any key containing one of the proprietary marker byte sequences
anywhere — here, one that does not even start with either marker, so it
matches none of the recognized keys — is routed to the liquid-specific
handling, never reaches the base record's generic handling (the
`base_handled` model field is untouched), and is stored verbatim in the
record's unknown-fields map. -/
theorem c10_marker_containment_routes_to_unknown (so : LOutputScope) (si : LInputScope)
    (k v rest : Bytes)
    (hmark : containsSeq elementsMarker k = true ∨ containsSeq psetMarker k = true)
    (hpre1 : startsWithSeq elementsMarker k = false)
    (hpre2 : startsWithSeq psetMarker k = false)
    (hv : v.length < 2 ^ 64) :
    LOutputScope.read_value so k (serString v ++ rest) =
      some ({ so with unknown := so.unknown ++ [(k, v)] }, rest) ∧
    LInputScope.read_value si k (serString v ++ rest) =
      some ({ si with unknown := si.unknown ++ [(k, v)] }, rest) := by
  have hneqE : ∀ (i : Nat), (k == kElements i) = false := by
    intro i
    rw [beq_eq_false_iff_ne]
    intro hEq
    rw [hEq, kElements] at hpre1
    rw [startsWithSeq_append_self] at hpre1
    cases hpre1
  have hneqP : ∀ (i : Nat), (k == kPset i) = false := by
    intro i
    rw [beq_eq_false_iff_ne]
    intro hEq
    rw [hEq, kPset] at hpre2
    rw [startsWithSeq_append_self] at hpre2
    cases hpre2
  constructor
  · refine (out_read_value_ser so k v rest hv).trans ?_
    unfold LOutputScope.apply_kv
    rcases hmark with hm | hm <;>
    simp [hm, hneqE 0x00, hneqE 0x01, hneqE 0x02, hneqE 0x03, hneqE 0x04, hneqE 0x05,
      hneqE 0x06, hneqE 0x07, hneqP 0x01, hneqP 0x02, hneqP 0x03, hneqP 0x04,
      hneqP 0x05, hneqP 0x06, hneqP 0x07, hneqP 0x08]
  · refine (in_read_value_ser si k v rest hv).trans ?_
    unfold LInputScope.apply_kv
    rcases hmark with hm | hm <;>
    simp [hm, hneqE 0x00, hneqE 0x01, hneqE 0x02, hneqE 0x03, hneqP 0x0e]

/-- C10 witness: the key `00 fc 04 "pset"` carries the v2 marker in a
non-prefix position; parsing it with a one-byte value stores the pair
verbatim in the unknown map of a fresh output record and of a fresh
input record. -/
theorem c10_marker_containment_routes_to_unknown_witness :
    LOutputScope.read_value (blankOutput false) (0 :: psetMarker) (serString [5]) =
      some ({ blankOutput false with unknown := [(0 :: psetMarker, [5])] }, []) ∧
    LInputScope.read_value (blankInput false) (0 :: psetMarker) (serString [5]) =
      some ({ blankInput false with unknown := [(0 :: psetMarker, [5])] }, []) := by
  have h := c10_marker_containment_routes_to_unknown (blankOutput false) (blankInput false)
    (0 :: psetMarker) [5] [] (Or.inr (by decide)) (by decide) (by decide) (by decide)
  exact ⟨h.1.trans rfl, h.2.trans rfl⟩

end LiquidPset
